import Mathlib

/-!
Verification development for the Zenith task-board core: a shallow embedding of
the Task entity model (src/task.js) and the persistence layer (src/storage.js),
with theorems settling the specification's claims about them.

Modelling conventions:
* JS strings are Lean `String`s; `trim` / `toLowerCase` / `length` are modelled
  on the underlying character list (`jsTrim`, `jsToLower`, `jsLength`), which is
  faithful for the ASCII data these operations are applied to.
* JS `Date` values are modelled by their millisecond timestamp (`Int`).
  ISO-8601 serialization keeps millisecond precision and parses back exactly,
  so serialize/parse of a date is the identity on the timestamp.
* `undefined`/`null` input fields are modelled as `Option.none` (the code
  treats the two the same in every validator that the claims exercise).
* A thrown JS exception is modelled as the `Except.error` branch; the error
  payload keeps (an abbreviation of) the message, and for `Task.update` it
  additionally carries the object state at the moment of the throw, because
  `update` mutates `this` field by field.
-/

namespace Zenith

/-- JS whitespace test for the characters relevant here (space, tab, newlines). -/
def jsWhite (c : Char) : Bool :=
  c = ' ' || c = '\t' || c = '\n' || c = '\r'

/-- Model of `String.prototype.trim`: drop whitespace from both ends. -/
def jsTrim (s : String) : String :=
  String.mk (((s.data.dropWhile jsWhite).reverse.dropWhile jsWhite).reverse)

/-- Model of `String.prototype.toLowerCase` (ASCII-faithful). -/
def jsToLower (s : String) : String :=
  String.mk (s.data.map Char.toLower)

/-- Model of `String.prototype.length` (codepoint count; equals the JS UTF-16
    unit count on the ASCII/BMP data used here). -/
def jsLength (s : String) : Nat :=
  s.data.length

/-- Model of `String.prototype.split(',')`. -/
def jsSplitComma (s : String) : List String :=
  (s.data.splitOn ',').map String.mk

/-- Tags input: `task.js` accepts either a comma-separated string or an array. -/
inductive TagsIn where
  | str (s : String)
  | arr (l : List String)
deriving DecidableEq, Repr

/-- Sub-task input element: a bare string, or an object with optional id,
    optional title and a `completed` flag (already coerced to Bool, as
    `Boolean(subtask.completed)` does). -/
inductive SubIn where
  | str (s : String)
  | obj (id : Option String) (title : Option String) (completed : Bool)
deriving DecidableEq, Repr

/-- The loosely-typed input record accepted by the `Task` constructor
    (`taskData` in src/task.js). `none` models an absent/undefined/null field
    (and for the timestamp fields any falsy value). -/
structure TaskData where
  id : Option String
  title : Option String
  description : Option String
  status : Option String
  priority : Option String
  dueDate : Option Int
  tags : Option TagsIn
  subtasks : Option (List SubIn)
  createdAt : Option Int
  updatedAt : Option Int
deriving DecidableEq, Repr

/-- An empty input record (all fields absent), for building inputs tersely. -/
def TaskData.empty : TaskData :=
  ⟨none, none, none, none, none, none, none, none, none, none⟩

/-- A validated sub-task as stored on a Task. -/
structure Subtask where
  id : String
  title : String
  completed : Bool
deriving DecidableEq, Repr

/-- The Task entity (the fields assigned by the constructor in src/task.js). -/
structure Task where
  id : String
  title : String
  description : Option String
  status : String
  priority : String
  dueDate : Option Int
  tags : List String
  subtasks : List Subtask
  createdAt : Int
  updatedAt : Int
deriving DecidableEq, Repr

/-- `Task.Status` enum values (frozen string constants in src/task.js). -/
def VALID_STATUSES : List String := ["todo", "inprogress", "completed"]

/-- `Task.Priority` enum values. -/
def VALID_PRIORITIES : List String := ["high", "medium", "low"]

/-- `Task.#validateTitle`: required string, trimmed, 1..100 characters after
    trimming. The empty string is falsy in JS, hence the required-field error. -/
def validateTitle : Option String → Except String String
  | none => .error "Task title is required and must be a string"
  | some t =>
    if t = "" then .error "Task title is required and must be a string"
    else
      let trimmed := jsTrim t
      if jsLength trimmed = 0 then .error "Task title cannot be empty"
      else if jsLength trimmed > 100 then .error "Task title cannot exceed 100 characters"
      else .ok trimmed

/-- `Task.#validateDescription`: absent/empty normalizes to null, otherwise
    trimmed and at most 500 characters (empty after trimming is also null). -/
def validateDescription : Option String → Except String (Option String)
  | none => .ok none
  | some s =>
    if s = "" then .ok none
    else
      let trimmed := jsTrim s
      if jsLength trimmed = 0 then .ok none
      else if jsLength trimmed > 500 then .error "Task description cannot exceed 500 characters"
      else .ok (some trimmed)

/-- `Task.#validateStatus`: absent/empty defaults to `todo`; otherwise the
    value is lowercased then trimmed and must be one of the enum values. -/
def validateStatus : Option String → Except String String
  | none => .ok "todo"
  | some s =>
    if s = "" then .ok "todo"
    else
      let normalized := jsTrim (jsToLower s)
      if VALID_STATUSES.contains normalized then .ok normalized
      else .error "Invalid status"

/-- `Task.#validatePriority`: absent/empty defaults to `medium`; otherwise
    lowercased, trimmed and checked against the enum. -/
def validatePriority : Option String → Except String String
  | none => .ok "medium"
  | some s =>
    if s = "" then .ok "medium"
    else
      let normalized := jsTrim (jsToLower s)
      if VALID_PRIORITIES.contains normalized then .ok normalized
      else .error "Invalid priority"

/-- `Task.#validateDueDate`: absent/empty is null; date inputs are modelled as
    already-parsed millisecond timestamps (an unparseable date string throws in
    the source, a case no claim exercises). -/
def validateDueDate : Option Int → Except String (Option Int)
  | d => .ok d

/-- First-occurrence deduplication, as `[...new Set(array)]` performs. -/
def dedupFirst (seen : List String) : List String → List String
  | [] => []
  | x :: xs => if seen.contains x then dedupFirst seen xs else x :: dedupFirst (x :: seen) xs

/-- Shared tail of `Task.#validateTags`: dedupe, per-tag length bound, count bound. -/
def checkTags (arr : List String) : Except String (List String) :=
  let deduped := dedupFirst [] arr
  if deduped.any (fun tag => jsLength tag > 20) then
    .error "Each tag cannot exceed 20 characters"
  else if deduped.length > 10 then
    .error "Cannot have more than 10 tags per task"
  else .ok deduped

/-- `Task.#validateTags`: absent or empty input yields `[]`; a string is split
    on commas; candidates are trimmed, empty candidates discarded, duplicates
    collapsed, each tag at most 20 characters, at most 10 tags. -/
def validateTags : Option TagsIn → Except String (List String)
  | none => .ok []
  | some (.str s) =>
    if s = "" then .ok []
    else checkTags (((jsSplitComma s).map jsTrim).filter (fun t => jsLength t > 0))
  | some (.arr l) =>
    if l = [] then .ok []
    else checkTags ((l.map jsTrim).filter (fun t => jsLength t > 0))

/-- One element of `Task.#validateSubtasks`. A bare string is promoted with a
    fresh id and no further checks; an object needs a non-empty title whose
    untrimmed length is at most 100, keeps a truthy id, and stores the trimmed
    title. `gen k` supplies the (random UUID) id for this element. -/
def validateSub (gen : Nat → String) (k : Nat) : SubIn → Except String Subtask
  | .str s => .ok ⟨gen k, jsTrim s, false⟩
  | .obj i t c =>
    match t with
    | none => .error "Sub-task must have a title"
    | some t =>
      if t = "" then .error "Sub-task must have a title"
      else if jsLength (jsTrim t) = 0 then .error "Sub-task title cannot be empty"
      else if jsLength t > 100 then .error "Sub-task title cannot exceed 100 characters"
      else
        .ok ⟨(match i with
              | none => gen k
              | some i => if i = "" then gen k else i), jsTrim t, c⟩

/-- Sequential validation of the indexed sub-task list (the `map` in the
    source throws at the first invalid element). -/
def validateSubList (gen : Nat → String) : List (Nat × SubIn) → Except String (List Subtask)
  | [] => .ok []
  | (k, s) :: rest => do
    let st ← validateSub gen k s
    let tail ← validateSubList gen rest
    .ok (st :: tail)

/-- `Task.#validateSubtasks`: a non-array (including absent) input yields `[]`;
    otherwise each element is validated and the final list is capped at 20. -/
def validateSubtasks (gen : Nat → String) : Option (List SubIn) → Except String (List Subtask)
  | none => .ok []
  | some l => do
    let subs ← validateSubList gen l.enum
    if subs.length > 20 then .error "Cannot have more than 20 sub-tasks per task"
    else .ok subs

/-- The `Task` constructor. `gen` supplies generated UUIDs (all fresh, non-empty
    in reality), `now` is the current time. Field validation follows the
    source's order; in JS each validator throws, modelled by `Except`. -/
def Task.construct (gen : Nat → String) (now : Int) (d : TaskData) : Except String Task :=
  match d.title with
  | none => .error "Task title is required and must be a string"
  | some t0 =>
    if t0 = "" then .error "Task title is required and must be a string"
    else do
      let id := match d.id with
        | none => gen 0
        | some i => if i = "" then gen 0 else i
      let title ← validateTitle d.title
      let description ← validateDescription d.description
      let status ← validateStatus d.status
      let priority ← validatePriority d.priority
      let dueDate ← validateDueDate d.dueDate
      let tags ← validateTags d.tags
      let subtasks ← validateSubtasks gen d.subtasks
      let createdAt := d.createdAt.getD now
      let updatedAt := d.updatedAt.getD now
      .ok ⟨id, title, description, status, priority, dueDate, tags, subtasks, createdAt, updatedAt⟩

/-- `Task.prototype.toJSON`: the plain record, with dates as (lossless) ISO
    strings, here kept as their millisecond value. -/
def Task.toJSON (t : Task) : TaskData :=
  ⟨some t.id, some t.title, t.description, some t.status, some t.priority, t.dueDate,
   some (.arr t.tags),
   some (t.subtasks.map fun s => .obj (some s.id) (some s.title) s.completed),
   some t.createdAt, some t.updatedAt⟩

/-- `Task.fromJSON`: exactly the constructor applied to the record. -/
def Task.fromJSON (gen : Nat → String) (now : Int) (d : TaskData) : Except String Task :=
  Task.construct gen now d

/-- The partial update record accepted by `Task.prototype.update`. A `none`
    field is absent (`updates.field === undefined`) and is not touched.
    `dueDate := some none` models an explicit null, which clears the date. -/
structure Updates where
  title : Option String
  description : Option String
  status : Option String
  priority : Option String
  dueDate : Option (Option Int)
  tags : Option TagsIn
  subtasks : Option (List SubIn)
deriving DecidableEq, Repr

/-- An empty update record (`update({})`). -/
def Updates.empty : Updates := ⟨none, none, none, none, none, none, none⟩

/-- One field assignment of `update`: `this.field = validator(value)`. On a
    validator throw the error carries the current object state `t`, since the
    fields assigned so far stay assigned. -/
def updStep {α : Type} (t : Task) (res : Except String α) (set : Task → α → Task) :
    Except (Task × String) Task :=
  match res with
  | .ok v => .ok (set t v)
  | .error e => .error (t, e)

/-- The title step of `update`. -/
def updTitle (u : Updates) (t : Task) : Except (Task × String) Task :=
  match u.title with
  | none => .ok t
  | some v => updStep t (validateTitle (some v)) (fun t w => { t with title := w })

/-- The description step of `update`. -/
def updDescription (u : Updates) (t : Task) : Except (Task × String) Task :=
  match u.description with
  | none => .ok t
  | some v => updStep t (validateDescription (some v)) (fun t w => { t with description := w })

/-- The status step of `update`. -/
def updStatus (u : Updates) (t : Task) : Except (Task × String) Task :=
  match u.status with
  | none => .ok t
  | some v => updStep t (validateStatus (some v)) (fun t w => { t with status := w })

/-- The priority step of `update`. -/
def updPriority (u : Updates) (t : Task) : Except (Task × String) Task :=
  match u.priority with
  | none => .ok t
  | some v => updStep t (validatePriority (some v)) (fun t w => { t with priority := w })

/-- The dueDate step of `update`. -/
def updDueDate (u : Updates) (t : Task) : Except (Task × String) Task :=
  match u.dueDate with
  | none => .ok t
  | some v => updStep t (validateDueDate v) (fun t w => { t with dueDate := w })

/-- The tags step of `update`. -/
def updTags (u : Updates) (t : Task) : Except (Task × String) Task :=
  match u.tags with
  | none => .ok t
  | some v => updStep t (validateTags (some v)) (fun t w => { t with tags := w })

/-- The subtasks step of `update`. -/
def updSubtasks (gen : Nat → String) (u : Updates) (t : Task) : Except (Task × String) Task :=
  match u.subtasks with
  | none => .ok t
  | some v => updStep t (validateSubtasks gen (some v)) (fun t w => { t with subtasks := w })

/-- `Task.prototype.update`: touched fields are revalidated and assigned in
    source order; on success `updatedAt` is refreshed. A validation throw
    leaves the object in the state reached so far, which the error carries. -/
def Task.update (gen : Nat → String) (now : Int) (t : Task) (u : Updates) :
    Except (Task × String) Task := do
  let t ← updTitle u t
  let t ← updDescription u t
  let t ← updStatus u t
  let t ← updPriority u t
  let t ← updDueDate u t
  let t ← updTags u t
  let t ← updSubtasks gen u t
  .ok { t with updatedAt := now }

/-- `Task.prototype.addTag`: validates the trimmed tag, is a no-op for an
    existing tag, errors at the 10-tag ceiling, else appends and refreshes
    `updatedAt`. -/
def Task.addTag (now : Int) (t : Task) (tag : String) : Except String Task :=
  if tag = "" then .error "Tag must be a non-empty string"
  else
    let trimmed := jsTrim tag
    if jsLength trimmed = 0 then .error "Tag cannot be empty"
    else if jsLength trimmed > 20 then .error "Tag cannot exceed 20 characters"
    else if t.tags.contains trimmed then .ok t
    else if 10 ≤ t.tags.length then .error "Cannot add more than 10 tags"
    else .ok { t with tags := t.tags ++ [trimmed], updatedAt := now }

/-- `Task.prototype.removeTag`: removes the first exact occurrence if present,
    refreshing `updatedAt`; otherwise a no-op. -/
def Task.removeTag (now : Int) (t : Task) (tag : String) : Task :=
  if t.tags.contains tag then { t with tags := t.tags.erase tag, updatedAt := now }
  else t

/-- `Task.prototype.addSubtask`: validates the trimmed title, errors at the
    20-item ceiling, else appends a fresh incomplete sub-task. -/
def Task.addSubtask (gen : Nat → String) (now : Int) (t : Task) (title : String) :
    Except String Task :=
  if title = "" then .error "Sub-task title is required"
  else
    let trimmed := jsTrim title
    if jsLength trimmed = 0 then .error "Sub-task title cannot be empty"
    else if jsLength trimmed > 100 then .error "Sub-task title cannot exceed 100 characters"
    else if 20 ≤ t.subtasks.length then .error "Cannot add more than 20 sub-tasks"
    else .ok { t with subtasks := t.subtasks ++ [⟨gen 0, trimmed, false⟩], updatedAt := now }

/-- `Task.prototype.removeSubtask`: removes the first sub-task with the given
    id if found, refreshing `updatedAt`; otherwise a no-op. -/
def Task.removeSubtask (now : Int) (t : Task) (sid : String) : Task :=
  if t.subtasks.any (fun s => s.id = sid) then
    { t with subtasks := t.subtasks.eraseP (fun s => s.id == sid), updatedAt := now }
  else t

/-- Toggle the completion flag of the first sub-task with the given id. -/
def toggleFirst (sid : String) : List Subtask → List Subtask
  | [] => []
  | s :: rest =>
    if s.id = sid then { s with completed := !s.completed } :: rest
    else s :: toggleFirst sid rest

/-- `Task.prototype.toggleSubtask`: toggles the first matching sub-task and
    refreshes `updatedAt` if found; otherwise a no-op. -/
def Task.toggleSubtask (now : Int) (t : Task) (sid : String) : Task :=
  if t.subtasks.any (fun s => s.id = sid) then
    { t with subtasks := toggleFirst sid t.subtasks, updatedAt := now }
  else t

/-- A Task in canonical valid form: the spec's field invariants together with
    the normalization (trimming, lowercase enums, non-empty ids) that the
    constructor establishes for every field it validates. -/
def Task.Valid (t : Task) : Prop :=
  t.id ≠ "" ∧
  (jsTrim t.title = t.title ∧ 1 ≤ jsLength t.title ∧ jsLength t.title ≤ 100) ∧
  (∀ d ∈ t.description, jsTrim d = d ∧ 1 ≤ jsLength d ∧ jsLength d ≤ 500) ∧
  t.status ∈ VALID_STATUSES ∧
  t.priority ∈ VALID_PRIORITIES ∧
  (∀ tag ∈ t.tags, jsTrim tag = tag ∧ 1 ≤ jsLength tag ∧ jsLength tag ≤ 20) ∧
  t.tags.Nodup ∧ t.tags.length ≤ 10 ∧
  (∀ s ∈ t.subtasks,
    s.id ≠ "" ∧ jsTrim s.title = s.title ∧ 1 ≤ jsLength s.title ∧ jsLength s.title ≤ 100) ∧
  t.subtasks.length ≤ 20

instance : DecidablePred Task.Valid := fun t => by
  unfold Task.Valid; infer_instance

/-!
Persistence layer (src/storage.js). The underlying browser key-value store is
modelled as an association list from keys to stored values. A stored value is
its byte size together with what `JSON.parse` would make of it: unparseable
bytes, an array of task records, or some other parseable value. `setItem`
fails exactly when the store's total size would exceed the capacity `cap`
(the Web Storage quota, `QuotaExceededError`); reads and removals are total.
-/

/-- What `JSON.parse` yields for a stored byte string. -/
inductive Content where
  | malformed
  | jarr (records : List TaskData)
  | jother
deriving DecidableEq, Repr

/-- A stored value: its byte size and its parse result. -/
structure StoredVal where
  size : Nat
  content : Content
deriving DecidableEq, Repr

/-- The key-value store state (keys are unique). -/
abbrev Storage := List (String × StoredVal)

/-- `localStorage.getItem`. -/
def getItem (st : Storage) (k : String) : Option StoredVal :=
  match st.find? (fun kv => kv.1 == k) with
  | some kv => some kv.2
  | none => none

/-- Write a key-value pair, replacing an existing binding in place (keys are
    unique) or appending a new binding. -/
def setAssoc : Storage → String → StoredVal → Storage
  | [], k, v => [(k, v)]
  | kv :: rest, k, v => if kv.1 = k then (k, v) :: rest else kv :: setAssoc rest k v

/-- Total bytes held by the store. -/
def totalSize (st : Storage) : Nat :=
  (st.map (fun kv => kv.2.size)).sum

/-- `localStorage.setItem`: atomic write that throws `QuotaExceededError`
    (modelled as the error branch) when the write would exceed capacity. -/
def setItem (cap : Nat) (st : Storage) (k : String) (v : StoredVal) : Except Unit Storage :=
  let st2 := setAssoc st k v
  if totalSize st2 ≤ cap then .ok st2 else .error ()

/-- `localStorage.removeItem`. -/
def removeItem (st : Storage) (k : String) : Storage :=
  st.filter (fun kv => kv.1 != k)

/-- `STORAGE_KEY` in src/storage.js. -/
def STORAGE_KEY : String := "zenith_tasks"

/-- The backup key, `zenith_tasks_backup`. -/
def backupKey : String := "zenith_tasks_backup"

/-- The backup timestamp key, `zenith_tasks_backup_time`. -/
def backupTimeKey : String := "zenith_tasks_backup_time"

/-- The last-save marker key, `zenith_tasks_last_save`. -/
def lastSaveKey : String := "zenith_tasks_last_save"

/-- The quarantine key prefixed name part, `zenith_tasks_corrupted_`. -/
def corruptedKeyPre : String := "zenith_tasks_corrupted_"

/-- The availability probe key. -/
def testKey : String := "__zenith_storage_test__"

/-- `String.prototype.startsWith`. -/
def strStarts (pre s : String) : Bool :=
  pre.data.isPrefixOf s.data

/-- `StorageManager.isAvailable`: a trivial write/delete cycle; reports whether
    the probe write fits. The probe key is assumed absent from the states under
    consideration, so the set-then-remove leaves the store unchanged and the
    probe is modelled as a pure check. -/
def isAvailable (cap : Nat) (st : Storage) : Bool :=
  match setItem cap st testKey ⟨4, .jother⟩ with
  | .ok _ => true
  | .error _ => false

/-- `StorageManager.createBackup`: copy the current primary value (if any) to
    the backup key and stamp the backup time `ts`; any throw is caught, keeping
    whatever part succeeded. -/
def createBackup (cap : Nat) (ts : StoredVal) (st : Storage) : Storage :=
  match getItem st STORAGE_KEY with
  | none => st
  | some cur =>
    match setItem cap st backupKey cur with
    | .error _ => st
    | .ok st1 =>
      match setItem cap st1 backupTimeKey ts with
      | .error _ => st1
      | .ok st2 => st2

/-- `StorageManager.restoreFromBackup`: copy the backup value over the primary
    key; returns whether a restore happened (a throw is caught, returning
    false with the store unchanged). -/
def restoreFromBackup (cap : Nat) (st : Storage) : Bool × Storage :=
  match getItem st backupKey with
  | none => (false, st)
  | some b =>
    match setItem cap st STORAGE_KEY b with
    | .ok st1 => (true, st1)
    | .error _ => (false, st)

/-- `StorageManager.recoverFromBackup`: restore only after checking that the
    backup value parses. -/
def recoverFromBackup (cap : Nat) (st : Storage) : Bool × Storage :=
  match getItem st backupKey with
  | none => (false, st)
  | some b =>
    match b.content with
    | .malformed => (false, st)
    | _ => restoreFromBackup cap st

/-- `StorageManager.clearCorruptedData`: archive the corrupted value under a
    timestamped quarantine key (best effort) and clear the primary key.
    `tsName` is the timestamp embedded in the quarantine key. -/
def clearCorruptedData (cap : Nat) (tsName : String) (corrupted : StoredVal) (st : Storage) :
    Storage :=
  let st1 := match setItem cap st (corruptedKeyPre ++ tsName) corrupted with
    | .ok s => s
    | .error _ => st
  removeItem st1 STORAGE_KEY

/-- A key removed by `handleQuotaExceeded`'s cleanup scan: it starts with
    the quarantine name part or with the backup key (which also matches the
    backup-time key). -/
def isOldKey (k : String) : Bool :=
  strStarts corruptedKeyPre k || strStarts backupKey k

/-- The cleanup pass of `handleQuotaExceeded`: remove every backup/quarantine
    key; also report whether anything was removed. -/
def cleanupOld (st : Storage) : Storage × Bool :=
  (st.filter (fun kv => !isOldKey kv.1), st.any (fun kv => isOldKey kv.1))

/-- An element of the `tasks` argument to `saveTasks`: a genuine `Task`
    instance or some other value (which makes the serialization `map` throw). -/
inductive SaveItem where
  | task (t : Task)
  | other
deriving DecidableEq, Repr

/-- Whether an element fails the `instanceof Task` check. -/
def SaveItem.isBad : SaveItem → Bool
  | .task _ => false
  | .other => true

/-- The serialized collection: `JSON.stringify` of the records. `serSize`
    gives the byte size of the encoding (an abstract measure of the JSON
    text; the claims only constrain it relative to the capacity). -/
def serialize (serSize : List TaskData → Nat) (recs : List TaskData) : StoredVal :=
  ⟨serSize recs, .jarr recs⟩

/-- `StorageManager.saveTasks` together with `handleQuotaExceeded`, which are
    mutually recursive in the source (`handleQuotaExceeded` retries by calling
    `saveTasks` again). The recursion is modelled with explicit `fuel`;
    `none` means the fuel ran out, i.e. the source would still be recursing.
    The input is `none` for a non-array argument. `ts` is the timestamp value
    written to the marker keys. Returns the reported Bool and the store. -/
def saveTasksFuel (cap : Nat) (ts : StoredVal) (serSize : List TaskData → Nat) :
    Nat → Storage → Option (List SaveItem) → Option (Bool × Storage)
  | 0, _, _ => none
  | _ + 1, st, none =>
    -- `TypeError` from the array check, caught at the bottom: restore, report false
    some (false, (restoreFromBackup cap st).2)
  | fuel + 1, st, some items =>
    if !isAvailable cap st then some (false, st)
    else if items.any SaveItem.isBad then
      -- `TypeError` from the instanceof check, caught: restore, report false
      some (false, (restoreFromBackup cap st).2)
    else
      let recs := items.filterMap (fun it => match it with
        | .task t => some t.toJSON
        | .other => none)
      let st1 := createBackup cap ts st
      match setItem cap st1 STORAGE_KEY (serialize serSize recs) with
      | .error _ =>
        -- QuotaExceededError: handleQuotaExceeded, then report false regardless
        let cl := cleanupOld st1
        if cl.2 then
          match saveTasksFuel cap ts serSize fuel cl.1 (some items) with
          | none => none
          | some r => some (false, r.2)
        else some (false, cl.1)
      | .ok st2 =>
        match setItem cap st2 lastSaveKey ts with
        | .error _ =>
          let cl := cleanupOld st2
          if cl.2 then
            match saveTasksFuel cap ts serSize fuel cl.1 (some items) with
            | none => none
            | some r => some (false, r.2)
          else some (false, cl.1)
        | .ok st3 => some (true, st3)

/-- `StorageManager.loadTasks`. Calls itself once more after a successful
    backup recovery; the recursion is modelled with `fuel` (`none` = fuel ran
    out) and proved to need no more than 2 steps. Returns the loaded tasks
    and the resulting store. -/
def loadTasksFuel (gen : Nat → String) (now : Int) (cap : Nat) (tsName : String) :
    Nat → Storage → Option (List Task × Storage)
  | 0, _ => none
  | fuel + 1, st =>
    if !isAvailable cap st then some ([], st)
    else
      match getItem st STORAGE_KEY with
      | none => some ([], st)
      | some v =>
        match v.content with
        | .malformed =>
          let r := recoverFromBackup cap st
          if r.1 then loadTasksFuel gen now cap tsName fuel r.2
          else some ([], clearCorruptedData cap tsName v r.2)
        | .jother => some ([], clearCorruptedData cap tsName v st)
        | .jarr l =>
          some (l.filterMap (fun d => (Task.fromJSON gen now d).toOption), st)

/-!
Auxiliary definitions used by the claim statements: a success test for
fallible calls, the relation between pre- and post-states of a failed
`update`, and the concrete data of the claims' scenarios.
-/

/-- Whether a JS call returned normally (`ok`) rather than throwing. -/
def exOk {ε α : Type} : Except ε α → Bool
  | .ok _ => true
  | .error _ => false

/-- What a (possibly failed) `update` step guarantees about the resulting
    object `r` relative to the incoming object `t`: identifier, `createdAt`
    and `updatedAt` are unchanged, and every field the update record does not
    touch is unchanged. -/
def updCarries (u : Updates) (t r : Task) : Prop :=
  r.id = t.id ∧ r.createdAt = t.createdAt ∧ r.updatedAt = t.updatedAt ∧
  (u.title = none → r.title = t.title) ∧
  (u.description = none → r.description = t.description) ∧
  (u.status = none → r.status = t.status) ∧
  (u.priority = none → r.priority = t.priority) ∧
  (u.dueDate = none → r.dueDate = t.dueDate) ∧
  (u.tags = none → r.tags = t.tags) ∧
  (u.subtasks = none → r.subtasks = t.subtasks)

/-- A fixed UUID supply for concrete scenarios (every generated id is "gid"). -/
def gen0 : Nat → String := fun _ => "gid"

/-- A representative fully-populated valid Task. -/
def sampleTask : Task :=
  ⟨"id1", "Write the spec", some "first draft", "inprogress", "high", some 1700000000000,
   ["work", "urgent"],
   [⟨"s1", "step one", true⟩, ⟨"s2", "step two", false⟩],
   1690000000000, 1695000000000⟩

/-- The task mutated in the failed-update scenario. -/
def c1Task : Task := ⟨"i1", "a", none, "todo", "medium", none, [], [], 0, 0⟩

/-- An update touching a valid title and an invalid status. -/
def c1Upd : Updates := ⟨some "b", none, some "bogus", none, none, none, none⟩

/-- An input record carrying only a title. -/
def titleData (s : String) : TaskData := { TaskData.empty with title := some s }

/-- An input record carrying only a title and a status. -/
def statusData (s : String) : TaskData :=
  { TaskData.empty with title := some "x", status := some s }

/-- An input record carrying only a title and a priority. -/
def priorityData (s : String) : TaskData :=
  { TaskData.empty with title := some "x", priority := some s }

/-- An update record touching only the status. -/
def statusUpd (s : String) : Updates := ⟨none, none, some s, none, none, none, none⟩

/-- An update record touching only the priority. -/
def priorityUpd (s : String) : Updates := ⟨none, none, none, some s, none, none, none⟩

/-- The timestamp value written to the marker keys in the save scenarios
    (an ISO-8601 string, 24 bytes). -/
def saveTs : StoredVal := ⟨24, .jother⟩

/-- The task saved in the quota scenario. -/
def c3Task : Task := ⟨"t1", "a", none, "todo", "medium", none, [], [], 0, 0⟩

/-- JSON text size of a serialized collection in the quota scenario:
    2 bytes of brackets plus 260 bytes per record. -/
def c3Ser : List TaskData → Nat := fun l => 2 + 260 * l.length

/-- Quota scenario start state: the primary key holds the 2-byte empty
    collection and nothing else is stored. -/
def c3St : Storage := [(STORAGE_KEY, ⟨2, .jarr []⟩)]

/-- An older-generation stored collection (the stale backup). -/
def c4Old : StoredVal := ⟨2, .jarr []⟩

/-- The value the primary key holds before the failed save. -/
def c4New : StoredVal := ⟨6, .jother⟩

/-- Rollback scenario start state: current primary plus a stale backup. -/
def c4St : Storage := [(STORAGE_KEY, c4New), (backupKey, c4Old)]

/-- First stored task record of the load scenarios. -/
def rec1 : TaskData := { TaskData.empty with id := some "a1", title := some "one" }

/-- Second stored task record (valid). -/
def rec2 : TaskData := { TaskData.empty with id := some "a2", title := some "two" }

/-- Second stored task record with an invalid status string. -/
def rec2bad : TaskData :=
  { TaskData.empty with id := some "a2", title := some "two", status := some "done" }

/-- Third stored task record of the partial-load scenario. -/
def rec3 : TaskData := { TaskData.empty with id := some "a3", title := some "three" }

/-- The valid 2-task backup value of the corruption-recovery scenario. -/
def backupVal : StoredVal := ⟨50, .jarr [rec1, rec2]⟩

/-- Corruption-recovery start state: malformed primary, valid 2-task backup. -/
def c6St : Storage := [(STORAGE_KEY, ⟨9, .malformed⟩), (backupKey, backupVal)]

/-- Partial-load start state: 3 stored records, the second invalid. -/
def c8St : Storage := [(STORAGE_KEY, ⟨50, .jarr [rec1, rec2bad, rec3]⟩)]

/-- An input record supplying its own timestamps, with `updatedAt` earlier
    than `createdAt`. -/
def c5Data : TaskData :=
  { TaskData.empty with title := some "a", createdAt := some 2000, updatedAt := some 500 }

/-- The task produced from `c5Data`. -/
def c5Bad : Task := ⟨"gid", "a", none, "todo", "medium", none, [], [], 2000, 500⟩

/-- The object state observed after the failed update of the C1 scenario:
    the new title is already assigned when the status validation throws. -/
def c1Mid : Task := ⟨"i1", "b", none, "todo", "medium", none, [], [], 0, 0⟩

/-- The task reconstructed from `rec1` at load time 7. -/
def tA1 : Task := ⟨"a1", "one", none, "todo", "medium", none, [], [], 7, 7⟩

/-- The task reconstructed from `rec2` at load time 7. -/
def tA2 : Task := ⟨"a2", "two", none, "todo", "medium", none, [], [], 7, 7⟩

/-- The task reconstructed from `rec3` at load time 7. -/
def tA3 : Task := ⟨"a3", "three", none, "todo", "medium", none, [], [], 7, 7⟩

/-- The storage state after the C4 scenario's failed save: the stale backup
    value has overwritten the primary key. -/
def c4After : Storage := [(STORAGE_KEY, c4Old), (backupKey, c4Old)]

end Zenith

deriving instance DecidableEq for Except

namespace Zenith

/-!
Lemmas about the validators, the update pipeline and the storage model.
-/

theorem jsLength_zero_iff {s : String} : jsLength s = 0 ↔ s = "" := by
  constructor
  · intro h
    apply String.ext
    have hd : s.data = [] := List.length_eq_zero.mp h
    simp [hd]
  · intro h; subst h; rfl

theorem ne_empty_of_len {s : String} (h : 1 ≤ jsLength s) : s ≠ "" := by
  intro he
  rw [jsLength_zero_iff.mpr he] at h
  omega

theorem validateTitle_canon {s : String} (h1 : jsTrim s = s) (h2 : 1 ≤ jsLength s)
    (h3 : jsLength s ≤ 100) : validateTitle (some s) = .ok s := by
  simp only [validateTitle, if_neg (ne_empty_of_len h2), h1,
    if_neg (by omega : ¬ jsLength s = 0), if_neg (by omega : ¬ jsLength s > 100)]

theorem validateDescription_canon {d : Option String}
    (h : ∀ s ∈ d, jsTrim s = s ∧ 1 ≤ jsLength s ∧ jsLength s ≤ 500) :
    validateDescription d = .ok d := by
  match d with
  | none => rfl
  | some s =>
    obtain ⟨h1, h2, h3⟩ := h s (by simp)
    simp only [validateDescription, if_neg (ne_empty_of_len h2), h1,
      if_neg (by omega : ¬ jsLength s = 0), if_neg (by omega : ¬ jsLength s > 500)]

theorem validateStatus_canon {s : String} (h : s ∈ VALID_STATUSES) :
    validateStatus (some s) = .ok s := by
  simp only [VALID_STATUSES, List.mem_cons, List.mem_singleton] at h
  rcases h with h | h | h | h <;> first | (subst h; decide) | simp at h

theorem validatePriority_canon {s : String} (h : s ∈ VALID_PRIORITIES) :
    validatePriority (some s) = .ok s := by
  simp only [VALID_PRIORITIES, List.mem_cons, List.mem_singleton] at h
  rcases h with h | h | h | h <;> first | (subst h; decide) | simp at h

theorem map_fix_of {α : Type} {l : List α} {f : α → α} (h : ∀ a ∈ l, f a = a) :
    l.map f = l := by
  induction l with
  | nil => rfl
  | cons x xs ih => simp_all

theorem filter_all_of {α : Type} {l : List α} {p : α → Bool} (h : ∀ a ∈ l, p a) :
    l.filter p = l := by
  induction l with
  | nil => rfl
  | cons x xs ih => simp_all [List.filter_cons]

theorem dedupFirst_eq_self {l : List String} :
    ∀ seen : List String, (∀ a ∈ l, a ∉ seen) → l.Nodup → dedupFirst seen l = l := by
  induction l with
  | nil => intro seen _ _; rfl
  | cons x xs ih =>
    intro seen hseen hnd
    have hx : ¬ seen.contains x := by
      simpa using hseen x (by simp)
    unfold dedupFirst
    simp only [hx, if_false, Bool.false_eq_true]
    rw [ih (x :: seen) ?_ hnd.of_cons]
    intro a ha
    simp only [List.mem_cons, not_or]
    exact ⟨fun he => (List.nodup_cons.mp hnd).1 (he ▸ ha), hseen a (List.mem_cons_of_mem _ ha)⟩

theorem validateTags_canon {tags : List String}
    (h : ∀ tag ∈ tags, jsTrim tag = tag ∧ 1 ≤ jsLength tag ∧ jsLength tag ≤ 20)
    (hnd : tags.Nodup) (hle : tags.length ≤ 10) :
    validateTags (some (.arr tags)) = .ok tags := by
  match tags with
  | [] => rfl
  | t :: ts =>
    simp only [validateTags, if_neg (by simp : ¬ (t :: ts = []))]
    rw [map_fix_of (fun a ha => (h a ha).1)]
    rw [filter_all_of (fun a ha => by have := (h a ha).2.1; simp only [decide_eq_true_eq]; omega)]
    unfold checkTags
    rw [dedupFirst_eq_self _ (by simp) hnd]
    rw [if_neg ?_, if_neg (by simp only [not_lt]; omega)]
    · simp only [List.any_eq_true, not_exists, not_and]
      intro a ha
      have := (h a ha).2.2
      simp only [decide_eq_true_eq, not_lt]
      omega

theorem validateSubList_canon (gen : Nat → String) {subs : List Subtask}
    (h : ∀ s ∈ subs, s.id ≠ "" ∧ jsTrim s.title = s.title ∧ 1 ≤ jsLength s.title ∧
      jsLength s.title ≤ 100) :
    ∀ k : Nat, validateSubList gen
      (((subs.map fun s => SubIn.obj (some s.id) (some s.title) s.completed).enumFrom k)) =
      .ok subs := by
  induction subs with
  | nil => intro k; rfl
  | cons s rest ih =>
    intro k
    obtain ⟨hid, htr, h1, h2⟩ := h s (by simp)
    have hstep : validateSub gen k (SubIn.obj (some s.id) (some s.title) s.completed) = .ok s := by
      simp only [validateSub, if_neg (ne_empty_of_len h1), htr,
        if_neg (by omega : ¬ jsLength s.title = 0), if_neg (by omega : ¬ jsLength s.title > 100),
        if_neg hid]
    simp only [List.map_cons, List.enumFrom_cons, validateSubList, hstep]
    rw [ih (fun a ha => h a (List.mem_cons_of_mem _ ha)) (k + 1)]
    rfl

theorem validateSubtasks_canon (gen : Nat → String) {subs : List Subtask}
    (h : ∀ s ∈ subs, s.id ≠ "" ∧ jsTrim s.title = s.title ∧ 1 ≤ jsLength s.title ∧
      jsLength s.title ≤ 100) (hle : subs.length ≤ 20) :
    validateSubtasks gen
      (some (subs.map fun s => SubIn.obj (some s.id) (some s.title) s.completed)) = .ok subs := by
  have he : (subs.map fun s => SubIn.obj (some s.id) (some s.title) s.completed).enum =
      (subs.map fun s => SubIn.obj (some s.id) (some s.title) s.completed).enumFrom 0 := rfl
  simp only [validateSubtasks, he, validateSubList_canon gen h 0, bind, Except.bind]
  rw [if_neg (by omega : ¬ subs.length > 20)]


theorem updCarries_refl (u : Updates) (t : Task) : updCarries u t t := by
  unfold updCarries; simp

theorem updCarries_trans {u : Updates} {a b c : Task}
    (h1 : updCarries u a b) (h2 : updCarries u b c) : updCarries u a c := by
  obtain ⟨i1, c1, u1, t1, d1, s1, p1, dd1, tg1, st1⟩ := h1
  obtain ⟨i2, c2, u2, t2, d2, s2, p2, dd2, tg2, st2⟩ := h2
  refine ⟨i2.trans i1, c2.trans c1, u2.trans u1, ?_, ?_, ?_, ?_, ?_, ?_, ?_⟩ <;>
    intro h <;> simp_all

theorem updTitle_ok {u : Updates} {t r : Task} (h : updTitle u t = .ok r) :
    updCarries u t r := by
  unfold updTitle updStep at h
  split at h
  · cases h; exact updCarries_refl u t
  · split at h
    · cases h; unfold updCarries; simp_all
    · cases h

theorem updTitle_err {u : Updates} {t t1 : Task} {e : String}
    (h : updTitle u t = .error (t1, e)) : t1 = t := by
  unfold updTitle updStep at h
  split at h
  · cases h
  · split at h
    · cases h
    · cases h; rfl

theorem updDescription_ok {u : Updates} {t r : Task} (h : updDescription u t = .ok r) :
    updCarries u t r := by
  unfold updDescription updStep at h
  split at h
  · cases h; exact updCarries_refl u t
  · split at h
    · cases h; unfold updCarries; simp_all
    · cases h

theorem updDescription_err {u : Updates} {t t1 : Task} {e : String}
    (h : updDescription u t = .error (t1, e)) : t1 = t := by
  unfold updDescription updStep at h
  split at h
  · cases h
  · split at h
    · cases h
    · cases h; rfl

theorem updStatus_ok {u : Updates} {t r : Task} (h : updStatus u t = .ok r) :
    updCarries u t r := by
  unfold updStatus updStep at h
  split at h
  · cases h; exact updCarries_refl u t
  · split at h
    · cases h; unfold updCarries; simp_all
    · cases h

theorem updStatus_err {u : Updates} {t t1 : Task} {e : String}
    (h : updStatus u t = .error (t1, e)) : t1 = t := by
  unfold updStatus updStep at h
  split at h
  · cases h
  · split at h
    · cases h
    · cases h; rfl

theorem updPriority_ok {u : Updates} {t r : Task} (h : updPriority u t = .ok r) :
    updCarries u t r := by
  unfold updPriority updStep at h
  split at h
  · cases h; exact updCarries_refl u t
  · split at h
    · cases h; unfold updCarries; simp_all
    · cases h

theorem updPriority_err {u : Updates} {t t1 : Task} {e : String}
    (h : updPriority u t = .error (t1, e)) : t1 = t := by
  unfold updPriority updStep at h
  split at h
  · cases h
  · split at h
    · cases h
    · cases h; rfl

theorem updDueDate_ok {u : Updates} {t r : Task} (h : updDueDate u t = .ok r) :
    updCarries u t r := by
  unfold updDueDate updStep at h
  split at h
  · cases h; exact updCarries_refl u t
  · split at h
    · cases h; unfold updCarries; simp_all
    · cases h

theorem updDueDate_err {u : Updates} {t t1 : Task} {e : String}
    (h : updDueDate u t = .error (t1, e)) : t1 = t := by
  unfold updDueDate updStep at h
  split at h
  · cases h
  · split at h
    · cases h
    · cases h; rfl

theorem updTags_ok {u : Updates} {t r : Task} (h : updTags u t = .ok r) :
    updCarries u t r := by
  unfold updTags updStep at h
  split at h
  · cases h; exact updCarries_refl u t
  · split at h
    · cases h; unfold updCarries; simp_all
    · cases h

theorem updTags_err {u : Updates} {t t1 : Task} {e : String}
    (h : updTags u t = .error (t1, e)) : t1 = t := by
  unfold updTags updStep at h
  split at h
  · cases h
  · split at h
    · cases h
    · cases h; rfl

theorem updSubtasks_ok {gen : Nat → String} {u : Updates} {t r : Task}
    (h : updSubtasks gen u t = .ok r) : updCarries u t r := by
  unfold updSubtasks updStep at h
  split at h
  · cases h; exact updCarries_refl u t
  · split at h
    · cases h; unfold updCarries; simp_all
    · cases h

theorem updSubtasks_err {gen : Nat → String} {u : Updates} {t t1 : Task} {e : String}
    (h : updSubtasks gen u t = .error (t1, e)) : t1 = t := by
  unfold updSubtasks updStep at h
  split at h
  · cases h
  · split at h
    · cases h
    · cases h; rfl

theorem update_err_carries {gen : Nat → String} {now : Int} {t : Task} {u : Updates}
    {t1 : Task} {e : String} (h : Task.update gen now t u = .error (t1, e)) :
    updCarries u t t1 := by
  unfold Task.update at h
  simp only [bind, Except.bind] at h
  cases h1 : updTitle u t with
  | error p => simp only [h1] at h; cases h; exact (updTitle_err h1) ▸ updCarries_refl u t
  | ok a =>
    simp only [h1] at h
    cases h2 : updDescription u a with
    | error p =>
      simp only [h2] at h; cases h
      exact (updDescription_err h2) ▸ updTitle_ok h1
    | ok b =>
      simp only [h2] at h
      cases h3 : updStatus u b with
      | error p =>
        simp only [h3] at h; cases h
        exact updCarries_trans (updTitle_ok h1) ((updStatus_err h3) ▸ updDescription_ok h2)
      | ok c =>
        simp only [h3] at h
        cases h4 : updPriority u c with
        | error p =>
          simp only [h4] at h; cases h
          exact updCarries_trans (updTitle_ok h1) (updCarries_trans (updDescription_ok h2)
            ((updPriority_err h4) ▸ updStatus_ok h3))
        | ok d =>
          simp only [h4] at h
          cases h5 : updDueDate u d with
          | error p =>
            simp only [h5] at h; cases h
            exact updCarries_trans (updTitle_ok h1) (updCarries_trans (updDescription_ok h2)
              (updCarries_trans (updStatus_ok h3) ((updDueDate_err h5) ▸ updPriority_ok h4)))
          | ok f =>
            simp only [h5] at h
            cases h6 : updTags u f with
            | error p =>
              simp only [h6] at h; cases h
              exact updCarries_trans (updTitle_ok h1) (updCarries_trans (updDescription_ok h2)
                (updCarries_trans (updStatus_ok h3) (updCarries_trans (updPriority_ok h4)
                  ((updTags_err h6) ▸ updDueDate_ok h5))))
            | ok g =>
              simp only [h6] at h
              cases h7 : updSubtasks gen u g with
              | error p =>
                simp only [h7] at h; cases h
                exact updCarries_trans (updTitle_ok h1) (updCarries_trans (updDescription_ok h2)
                  (updCarries_trans (updStatus_ok h3) (updCarries_trans (updPriority_ok h4)
                    (updCarries_trans (updDueDate_ok h5)
                      ((updSubtasks_err h7) ▸ updTags_ok h6)))))
              | ok i =>
                simp only [h7] at h; cases h

theorem update_ok_meta {gen : Nat → String} {now : Int} {t : Task} {u : Updates}
    {t1 : Task} (h : Task.update gen now t u = .ok t1) :
    t1.id = t.id ∧ t1.createdAt = t.createdAt ∧ t1.updatedAt = now := by
  unfold Task.update at h
  simp only [bind, Except.bind] at h
  cases h1 : updTitle u t with
  | error p => simp only [h1] at h; cases h
  | ok a =>
    simp only [h1] at h
    cases h2 : updDescription u a with
    | error p => simp only [h2] at h; cases h
    | ok b =>
      simp only [h2] at h
      cases h3 : updStatus u b with
      | error p => simp only [h3] at h; cases h
      | ok c =>
        simp only [h3] at h
        cases h4 : updPriority u c with
        | error p => simp only [h4] at h; cases h
        | ok d =>
          simp only [h4] at h
          cases h5 : updDueDate u d with
          | error p => simp only [h5] at h; cases h
          | ok f =>
            simp only [h5] at h
            cases h6 : updTags u f with
            | error p => simp only [h6] at h; cases h
            | ok g =>
              simp only [h6] at h
              cases h7 : updSubtasks gen u g with
              | error p => simp only [h7] at h; cases h
              | ok i =>
                simp only [h7] at h; cases h
                have c1 := updTitle_ok h1
                have c2 := updDescription_ok h2
                have c3 := updStatus_ok h3
                have c4 := updPriority_ok h4
                have c5 := updDueDate_ok h5
                have c6 := updTags_ok h6
                have c7 := updSubtasks_ok h7
                have call := updCarries_trans c1 (updCarries_trans c2 (updCarries_trans c3
                  (updCarries_trans c4 (updCarries_trans c5 (updCarries_trans c6 c7)))))
                obtain ⟨hi, hc, -, -⟩ := call
                exact ⟨hi, hc, rfl⟩

theorem getItem_setAssoc_self (k : String) (v : StoredVal) :
    ∀ st : Storage, getItem (setAssoc st k v) k = some v := by
  intro st
  induction st with
  | nil => simp [setAssoc, getItem, List.find?]
  | cons kv rest ih =>
    by_cases h : kv.1 = k
    · simp [setAssoc, h, getItem, List.find?]
    · simp only [setAssoc, if_neg h]
      simp only [getItem, List.find?] at ih ⊢
      rw [show (kv.1 == k) = false by simpa using h]
      exact ih

theorem getItem_setAssoc_other (k k2 : String) (v : StoredVal) (hne : k2 ≠ k) :
    ∀ st : Storage, getItem (setAssoc st k v) k2 = getItem st k2 := by
  intro st
  induction st with
  | nil =>
    simp only [setAssoc, getItem, List.find?]
    rw [show (k == k2) = false by simpa using fun hh => hne (by simp_all)]
  | cons kv rest ih =>
    by_cases h : kv.1 = k
    · simp only [setAssoc, if_pos h, getItem, List.find?]
      rw [show (k == k2) = false by simpa using fun hh => hne (by simp_all)]
      rw [show (kv.1 == k2) = false by subst h; simpa using fun hh => hne (by simp_all)]
    · simp only [setAssoc, if_neg h, getItem, List.find?] at ih ⊢
      cases hkv : (kv.1 == k2) <;> simp [hkv, ih]

theorem toOption_ok {ε α : Type} {e : Except ε α} {a : α} :
    e.toOption = some a ↔ e = .ok a := by
  cases e <;> simp [Except.toOption]

theorem setItem_ok_state {cap : Nat} {st st1 : Storage} {k : String} {v : StoredVal}
    (h : setItem cap st k v = .ok st1) : st1 = setAssoc st k v := by
  simp only [setItem] at h
  split at h
  · cases h; rfl
  · cases h

theorem recoverFromBackup_true {cap : Nat} {st r : Storage}
    (h : recoverFromBackup cap st = (true, r)) :
    ∃ b, getItem st backupKey = some b ∧ b.content ≠ .malformed ∧
      r = setAssoc st STORAGE_KEY b := by
  unfold recoverFromBackup at h
  cases hB : getItem st backupKey with
  | none => simp only [hB] at h; simp at h
  | some b =>
    simp only [hB] at h
    cases hc : b.content with
    | malformed => simp only [hc] at h; simp at h
    | jarr l =>
      simp only [hc] at h
      unfold restoreFromBackup at h
      simp only [hB] at h
      cases hS : setItem cap st STORAGE_KEY b with
      | ok st1 =>
        simp only [hS] at h
        have hr : st1 = r := congrArg Prod.snd h
        exact ⟨b, rfl, by simp [hc], by rw [← hr, setItem_ok_state hS]⟩
      | error u => simp only [hS] at h; simp at h
    | jother =>
      simp only [hc] at h
      unfold restoreFromBackup at h
      simp only [hB] at h
      cases hS : setItem cap st STORAGE_KEY b with
      | ok st1 =>
        simp only [hS] at h
        have hr : st1 = r := congrArg Prod.snd h
        exact ⟨b, rfl, by simp [hc], by rw [← hr, setItem_ok_state hS]⟩
      | error u => simp only [hS] at h; simp at h


theorem construct_ok_timestamps {gen : Nat → String} {now : Int} {d : TaskData} {t : Task}
    (h : Task.construct gen now d = .ok t) :
    t.createdAt = d.createdAt.getD now ∧ t.updatedAt = d.updatedAt.getD now := by
  unfold Task.construct at h
  cases hT : d.title with
  | none => simp only [hT] at h; cases h
  | some t0 =>
    simp only [hT] at h
    split at h
    · cases h
    · simp only [bind, Except.bind] at h
      cases h1 : validateTitle (some t0) with
      | error e => simp only [h1] at h; cases h
      | ok a =>
        simp only [h1] at h
        cases h2 : validateDescription d.description with
        | error e => simp only [h2] at h; cases h
        | ok b =>
          simp only [h2] at h
          cases h3 : validateStatus d.status with
          | error e => simp only [h3] at h; cases h
          | ok c =>
            simp only [h3] at h
            cases h4 : validatePriority d.priority with
            | error e => simp only [h4] at h; cases h
            | ok p =>
              simp only [h4] at h
              cases h5 : validateTags d.tags with
              | error e => simp only [validateDueDate, h5] at h; cases h
              | ok tg =>
                simp only [validateDueDate, h5] at h
                cases h6 : validateSubtasks gen d.subtasks with
                | error e => simp only [h6] at h; cases h
                | ok sb =>
                  simp only [h6] at h
                  cases h
                  exact ⟨rfl, rfl⟩


/-!
The claims. Each claim of the specification is settled by one theorem below
(with a counterexample theorem where the claim as stated fails on the code,
and a witness theorem instantiating every hypothesis at concrete data).
-/

/-- C1, counterexample: updating a task titled "a" with a valid new title "b"
    and an invalid status throws, yet afterwards the task's title is already
    "b" — a partially-applied state is observable, contradicting the claim
    that after a failed `update` every field equals its prior value. -/
theorem C1_counterexample :
    Task.update gen0 99 c1Task c1Upd = .error (c1Mid, "Invalid status") ∧
    c1Mid.title ≠ c1Task.title ∧ c1Mid.title = "b" := by decide

/-- C1, amended: when `update` fails validation on a touched field, the task's
    id, `createdAt` and `updatedAt` and every field NOT touched by the update
    record keep their prior values; touched fields whose validation ran before
    the failing one, however, may already hold their new values. -/
theorem C1_failed_update_untouched_fields {gen : Nat → String} {now : Int} {t : Task}
    {u : Updates} {t1 : Task} {e : String}
    (h : Task.update gen now t u = .error (t1, e)) : updCarries u t t1 :=
  update_err_carries h

/-- C1, witness: an update touching only the status fails on task `c1Task`,
    and the failure state carries every untouched field unchanged. -/
theorem C1_witness :
    Task.update gen0 99 c1Task (statusUpd "bogus") = .error (c1Task, "Invalid status") ∧
    updCarries (statusUpd "bogus") c1Task c1Task :=
  ⟨by decide,
   @C1_failed_update_untouched_fields gen0 99 c1Task (statusUpd "bogus") c1Task
     "Invalid status" (by decide)⟩

/-- C2: for every Task in canonical valid form, `fromJSON (toJSON t)` succeeds
    and rebuilds a Task equal to `t` in every field (id, title, description,
    status, priority, dueDate, tags in order, subtasks in order, createdAt,
    updatedAt). -/
theorem C2_round_trip {gen : Nat → String} {now : Int} {t : Task} (h : t.Valid) :
    Task.fromJSON gen now t.toJSON = .ok t := by
  obtain ⟨hid, ⟨ht1, ht2, ht3⟩, hd, hs, hp, htags, hnd, htle, hsubs, hsle⟩ := h
  simp only [Task.fromJSON, Task.construct, Task.toJSON]
  rw [if_neg (ne_empty_of_len ht2)]
  simp only [validateTitle_canon ht1 ht2 ht3, validateDescription_canon hd,
    validateStatus_canon hs, validatePriority_canon hp,
    validateTags_canon htags hnd htle, validateSubtasks_canon gen hsubs hsle,
    validateDueDate, if_neg hid, Option.getD_some, bind, Except.bind]

/-- C2, witness: the round trip at a fully-populated concrete valid task. -/
theorem C2_witness :
    sampleTask.Valid ∧ Task.fromJSON gen0 0 sampleTask.toJSON = .ok sampleTask :=
  ⟨by decide, C2_round_trip (by decide)⟩

/-- C3: the quota-exceeded handler does NOT retry the save just once. In the
    concrete scenario (capacity 100 bytes, primary holding the 2-byte empty
    collection, saving one task whose serialization is 262 bytes), every
    cleanup removes the backup keys that the retry's `createBackup` then
    recreates, so the `saveTasks`/`handleQuotaExceeded` recursion never
    returns: for every recursion budget the model still runs out of fuel. -/
theorem C3_quota_retry_never_terminates :
    ∀ fuel, saveTasksFuel 100 saveTs c3Ser fuel c3St (some [SaveItem.task c3Task]) = none := by
  intro fuel
  induction fuel with
  | zero => rfl
  | succ n ih =>
    have hstep : saveTasksFuel 100 saveTs c3Ser (n + 1) c3St (some [SaveItem.task c3Task]) =
        match saveTasksFuel 100 saveTs c3Ser n c3St (some [SaveItem.task c3Task]) with
        | none => none
        | some r => some (false, r.2) := rfl
    rw [hstep, ih]

/-- C3, witness: five rounds of the recursion are still not enough. -/
theorem C3_witness :
    saveTasksFuel 100 saveTs c3Ser 5 c3St (some [SaveItem.task c3Task]) = none :=
  C3_quota_retry_never_terminates 5

/-- C4, counterexample: calling `saveTasks` with a non-array argument (a
    non-capacity failure) triggers the restore path, which overwrites the
    primary key (holding `c4New`) with the OLDER backup generation `c4Old`:
    the failed save leaves the primary key worse off than before the call. -/
theorem C4_counterexample :
    saveTasksFuel 100 saveTs (fun _ => 0) 1 c4St none = some (false, c4After) ∧
    getItem c4St STORAGE_KEY = some c4New ∧
    getItem c4After STORAGE_KEY = some c4Old ∧
    c4Old ≠ c4New := by decide

/-- C4, amended: on a non-capacity failure (here: the non-array input check,
    which fires before the backup step) `saveTasks` reports false after
    attempting `restoreFromBackup`; if no backup exists the store is
    unchanged, but if a backup exists (and fits), the primary key is
    overwritten with that previous-generation backup value — so the primary
    can end up holding an older generation than immediately before the call. -/
theorem C4_restore_on_failure (cap : Nat) (ts : StoredVal) (serSize : List TaskData → Nat)
    (n : Nat) (st : Storage) :
    saveTasksFuel cap ts serSize (n + 1) st none = some (false, (restoreFromBackup cap st).2) ∧
    (getItem st backupKey = none → (restoreFromBackup cap st).2 = st) ∧
    (∀ b, getItem st backupKey = some b → totalSize (setAssoc st STORAGE_KEY b) ≤ cap →
      getItem (restoreFromBackup cap st).2 STORAGE_KEY = some b) := by
  refine ⟨rfl, ?_, ?_⟩
  · intro hB
    unfold restoreFromBackup
    simp only [hB]
  · intro b hB hfit
    have hres : restoreFromBackup cap st = (true, setAssoc st STORAGE_KEY b) := by
      unfold restoreFromBackup
      simp only [hB, setItem, if_pos hfit]
    rw [hres]
    exact getItem_setAssoc_self _ _ _

/-- C4, witness: in the concrete rollback state, the restore leaves the
    primary key holding the stale backup value. -/
theorem C4_witness :
    getItem c4St backupKey = some c4Old ∧
    totalSize (setAssoc c4St STORAGE_KEY c4Old) ≤ 100 ∧
    getItem (restoreFromBackup 100 c4St).2 STORAGE_KEY = some c4Old :=
  ⟨by decide, by decide,
    (C4_restore_on_failure 100 saveTs (fun _ => 0) 0 c4St).2.2 c4Old (by decide) (by decide)⟩

/-- C5, counterexample: the constructor accepts an input record whose
    `updatedAt` (500) is earlier than its `createdAt` (2000) and stores both
    verbatim, so immediately after construction `updatedAt < createdAt`,
    contradicting the claimed invariant for arbitrary input records. -/
theorem C5_counterexample :
    Task.construct gen0 1000 c5Data = .ok c5Bad ∧ c5Bad.updatedAt < c5Bad.createdAt := by
  decide

/-- C5, amended: `updatedAt ≥ createdAt` holds after construction whenever the
    input record supplies neither timestamp (both default to the same now),
    and it is preserved by every mutation operation (`update`, `addTag`,
    `removeTag`, `addSubtask`, `removeSubtask`, `toggleSubtask`) executed at a
    time not earlier than `createdAt`; records supplying their own timestamps
    can violate it at construction. -/
theorem C5_timestamps_invariant :
    (∀ (gen : Nat → String) (now : Int) (d : TaskData) (t : Task),
      d.createdAt = none → d.updatedAt = none → Task.construct gen now d = .ok t →
      t.createdAt ≤ t.updatedAt) ∧
    (∀ (gen : Nat → String) (now : Int) (t : Task) (u : Updates) (t1 : Task),
      Task.update gen now t u = .ok t1 → t.createdAt ≤ now → t1.createdAt ≤ t1.updatedAt) ∧
    (∀ (now : Int) (t : Task) (g : String) (t1 : Task),
      Task.addTag now t g = .ok t1 → t.createdAt ≤ t.updatedAt → t.createdAt ≤ now →
      t1.createdAt ≤ t1.updatedAt) ∧
    (∀ (now : Int) (t : Task) (g : String),
      t.createdAt ≤ t.updatedAt → t.createdAt ≤ now →
      (Task.removeTag now t g).createdAt ≤ (Task.removeTag now t g).updatedAt) ∧
    (∀ (gen : Nat → String) (now : Int) (t : Task) (s : String) (t1 : Task),
      Task.addSubtask gen now t s = .ok t1 → t.createdAt ≤ t.updatedAt → t.createdAt ≤ now →
      t1.createdAt ≤ t1.updatedAt) ∧
    (∀ (now : Int) (t : Task) (sid : String),
      t.createdAt ≤ t.updatedAt → t.createdAt ≤ now →
      (Task.removeSubtask now t sid).createdAt ≤ (Task.removeSubtask now t sid).updatedAt) ∧
    (∀ (now : Int) (t : Task) (sid : String),
      t.createdAt ≤ t.updatedAt → t.createdAt ≤ now →
      (Task.toggleSubtask now t sid).createdAt ≤ (Task.toggleSubtask now t sid).updatedAt) := by
  refine ⟨?_, ?_, ?_, ?_, ?_, ?_, ?_⟩
  · intro gen now d t hc hu h
    obtain ⟨h1, h2⟩ := construct_ok_timestamps h
    rw [h1, h2, hc, hu]
  · intro gen now t u t1 h hle
    obtain ⟨-, h1, h2⟩ := update_ok_meta h
    rw [h1, h2]
    exact hle
  · intro now t g t1 h hinv hle
    simp only [Task.addTag] at h
    split at h
    · cases h
    · split at h
      · cases h
      · split at h
        · cases h
        · split at h
          · cases h; exact hinv
          · split at h
            · cases h
            · cases h; simpa using hle
  · intro now t g hinv hle
    unfold Task.removeTag
    split
    · simpa using hle
    · exact hinv
  · intro gen now t s t1 h hinv hle
    simp only [Task.addSubtask] at h
    split at h
    · cases h
    · split at h
      · cases h
      · split at h
        · cases h
        · split at h
          · cases h
          · cases h; simpa using hle
  · intro now t sid hinv hle
    unfold Task.removeSubtask
    split
    · simpa using hle
    · exact hinv
  · intro now t sid hinv hle
    unfold Task.toggleSubtask
    split
    · simpa using hle
    · exact hinv

/-- C5, witness: the invariant at a concrete construction without supplied
    timestamps and at a concrete successful empty update. -/
theorem C5_witness :
    ((⟨"gid", "a", none, "todo", "medium", none, [], [], 5, 5⟩ : Task).createdAt ≤
      (⟨"gid", "a", none, "todo", "medium", none, [], [], 5, 5⟩ : Task).updatedAt) ∧
    ((⟨"i1", "a", none, "todo", "medium", none, [], [], 0, 9⟩ : Task).createdAt ≤
      (⟨"i1", "a", none, "todo", "medium", none, [], [], 0, 9⟩ : Task).updatedAt) :=
  ⟨C5_timestamps_invariant.1 gen0 5 (titleData "a")
      ⟨"gid", "a", none, "todo", "medium", none, [], [], 5, 5⟩ rfl rfl (by decide),
   C5_timestamps_invariant.2.1 gen0 9 c1Task Updates.empty
      ⟨"i1", "a", none, "todo", "medium", none, [], [], 0, 9⟩ (by decide) (by decide)⟩

/-- C6: when the primary key holds malformed bytes and the backup key holds a
    valid serialized collection of two task records, `loadTasks` (with room
    for the restore write and a succeeding availability probe) returns exactly
    the two reconstructed tasks, and afterwards the primary key holds the
    backup's value. -/
theorem C6_corruption_recovery (gen : Nat → String) (now : Int) (cap : Nat) (tsName : String)
    (st : Storage) (v b : StoredVal) (r1 r2 : TaskData) (t1 t2 : Task)
    (hP : getItem st STORAGE_KEY = some v) (hv : v.content = .malformed)
    (hB : getItem st backupKey = some b) (hbc : b.content = .jarr [r1, r2])
    (h1 : Task.fromJSON gen now r1 = .ok t1) (h2 : Task.fromJSON gen now r2 = .ok t2)
    (hfit : totalSize (setAssoc st STORAGE_KEY b) ≤ cap)
    (hA : isAvailable cap st = true)
    (hA2 : isAvailable cap (setAssoc st STORAGE_KEY b) = true) :
    loadTasksFuel gen now cap tsName 2 st = some ([t1, t2], setAssoc st STORAGE_KEY b) ∧
    getItem (setAssoc st STORAGE_KEY b) STORAGE_KEY = some b ∧
    getItem (setAssoc st STORAGE_KEY b) backupKey = some b := by
  have hrec : recoverFromBackup cap st = (true, setAssoc st STORAGE_KEY b) := by
    unfold recoverFromBackup restoreFromBackup
    simp only [hB, hbc, setItem, if_pos hfit]
  refine ⟨?_, getItem_setAssoc_self _ _ _, ?_⟩
  · show loadTasksFuel gen now cap tsName (1 + 1) st = _
    unfold loadTasksFuel
    simp only [hA, Bool.not_true, Bool.false_eq_true, if_false, hP, hv, hrec]
    show loadTasksFuel gen now cap tsName (0 + 1) (setAssoc st STORAGE_KEY b) = _
    unfold loadTasksFuel
    simp only [hA2, Bool.not_true, Bool.false_eq_true, if_false,
      getItem_setAssoc_self STORAGE_KEY b st, hbc]
    simp [h1, h2, Except.toOption]
  · rw [getItem_setAssoc_other STORAGE_KEY backupKey b (by decide) st]
    exact hB

/-- C6, witness: the recovery scenario at a concrete store with a malformed
    9-byte primary value and a valid 2-task backup. -/
theorem C6_witness :
    loadTasksFuel gen0 7 1000 "T" 2 c6St = some ([tA1, tA2], setAssoc c6St STORAGE_KEY backupVal) ∧
    getItem (setAssoc c6St STORAGE_KEY backupVal) STORAGE_KEY = some backupVal ∧
    getItem (setAssoc c6St STORAGE_KEY backupVal) backupKey = some backupVal :=
  C6_corruption_recovery gen0 7 1000 "T" c6St ⟨9, .malformed⟩ backupVal rec1 rec2 tA1 tA2
    (by decide) (by decide) (by decide) (by decide) (by decide) (by decide)
    (by decide) (by decide) (by decide)

/-- C7, counterexample: the single-space title has length 1 yet construction
    fails (the bound applies to the TRIMMED title), contradicting the claim
    that every title string of length 1 succeeds. -/
theorem C7_counterexample :
    jsLength " " = 1 ∧
    Task.construct gen0 0 (titleData " ") = .error "Task title cannot be empty" := by decide

/-- C7, amended: construction succeeds exactly when the TRIMMED title length
    is between 1 and 100; trimmed length 0 (including the empty string) and
    trimmed length above 100 always fail. -/
theorem C7_title_bounds (gen : Nat → String) (now : Int) (title : String) :
    exOk (Task.construct gen now (titleData title)) = true ↔
      (1 ≤ jsLength (jsTrim title) ∧ jsLength (jsTrim title) ≤ 100) := by
  by_cases h0 : title = ""
  · subst h0
    have hc : Task.construct gen now (titleData "") =
        .error "Task title is required and must be a string" := rfl
    rw [hc]
    simp only [exOk]
    simp
    decide
  · by_cases h1 : jsLength (jsTrim title) = 0
    · have hv : validateTitle (some title) = .error "Task title cannot be empty" := by
        simp only [validateTitle, if_neg h0, if_pos h1]
      simp only [Task.construct, titleData, TaskData.empty, if_neg h0, bind, Except.bind,
        hv, exOk]
      simp
      omega
    · by_cases h2 : jsLength (jsTrim title) > 100
      · have hv : validateTitle (some title) =
            .error "Task title cannot exceed 100 characters" := by
          simp only [validateTitle, if_neg h0, if_neg h1, if_pos h2]
        simp only [Task.construct, titleData, TaskData.empty, if_neg h0, bind, Except.bind,
          hv, exOk]
        simp
        omega
      · have hv : validateTitle (some title) = .ok (jsTrim title) := by
          simp only [validateTitle, if_neg h0, if_neg h1, if_neg h2]
        simp only [Task.construct, titleData, TaskData.empty, if_neg h0, bind, Except.bind,
          hv, validateDescription, validateStatus, validatePriority, validateDueDate,
          validateTags, validateSubtasks, validateSubList, exOk]
        simp
        omega

/-- C7, witness: a 100-character trimmed title succeeds. -/
theorem C7_witness :
    exOk (Task.construct gen0 0 (titleData
      "aaaaaaaaaaaaaaaaaaaaaaaaaaaaaaaaaaaaaaaaaaaaaaaaaaaaaaaaaaaaaaaaaaaaaaaaaaaaaaaaaaaaaaaaaaaaaaaaaa")) = true :=
  (C7_title_bounds gen0 0 _).mpr (by decide)

/-- C8: for every stored array of task records, loading passes each element
    individually through `fromJSON` and returns, without raising, exactly the
    successfully reconstructed tasks in their stored order, skipping the
    elements that fail validation. -/
theorem C8_partial_invalid_load (gen : Nat → String) (now : Int) (cap : Nat) (tsName : String)
    (st : Storage) (sz : Nat) (l : List TaskData)
    (hP : getItem st STORAGE_KEY = some ⟨sz, .jarr l⟩) (hA : isAvailable cap st = true) :
    loadTasksFuel gen now cap tsName 2 st =
      some (l.filterMap (fun d => (Task.fromJSON gen now d).toOption), st) := by
  show loadTasksFuel gen now cap tsName (1 + 1) st = _
  unfold loadTasksFuel
  simp only [hA, Bool.not_true, Bool.false_eq_true, if_false, hP]

/-- C8, witness: from three stored records whose second has an invalid status
    string, the load returns exactly the tasks of records one and three. -/
theorem C8_witness :
    loadTasksFuel gen0 7 1000 "T" 2 c8St = some ([tA1, tA3], c8St) := by
  rw [C8_partial_invalid_load gen0 7 1000 "T" c8St 50 [rec1, rec2bad, rec3]
    (by decide) (by decide)]
  decide

/-- C9, counterexample: the empty status string is not rejected although its
    trimmed lowercase form is not an enum value — it selects the default
    `todo` instead, contradicting the claimed "rejected exactly when". -/
theorem C9_counterexample :
    Task.construct gen0 3 (statusData "") =
      .ok ⟨"gid", "x", none, "todo", "medium", none, [], [], 3, 3⟩ ∧
    VALID_STATUSES.contains (jsTrim (jsToLower "")) = false := by decide

/-- C9, amended: for every NON-EMPTY string s, construction and update accept
    s as a status (resp. priority) exactly when its lowercased-then-trimmed
    form is an enum value, and then store that canonical lowercase value; the
    empty string is treated as absent and selects the default instead. -/
theorem C9_normalization (gen : Nat → String) (now : Int) (t : Task) (s : String)
    (hs : s ≠ "") :
    (VALID_STATUSES.contains (jsTrim (jsToLower s)) = true →
      Task.construct gen now (statusData s) =
        .ok ⟨gen 0, "x", none, jsTrim (jsToLower s), "medium", none, [], [], now, now⟩) ∧
    (VALID_STATUSES.contains (jsTrim (jsToLower s)) = false →
      Task.construct gen now (statusData s) = .error "Invalid status") ∧
    (VALID_STATUSES.contains (jsTrim (jsToLower s)) = true →
      Task.update gen now t (statusUpd s) =
        .ok { t with status := jsTrim (jsToLower s), updatedAt := now }) ∧
    (VALID_STATUSES.contains (jsTrim (jsToLower s)) = false →
      Task.update gen now t (statusUpd s) = .error (t, "Invalid status")) ∧
    (VALID_PRIORITIES.contains (jsTrim (jsToLower s)) = true →
      Task.construct gen now (priorityData s) =
        .ok ⟨gen 0, "x", none, "todo", jsTrim (jsToLower s), none, [], [], now, now⟩) ∧
    (VALID_PRIORITIES.contains (jsTrim (jsToLower s)) = false →
      Task.construct gen now (priorityData s) = .error "Invalid priority") ∧
    (VALID_PRIORITIES.contains (jsTrim (jsToLower s)) = true →
      Task.update gen now t (priorityUpd s) =
        .ok { t with priority := jsTrim (jsToLower s), updatedAt := now }) ∧
    (VALID_PRIORITIES.contains (jsTrim (jsToLower s)) = false →
      Task.update gen now t (priorityUpd s) = .error (t, "Invalid priority")) := by
  have hvs : validateStatus (some s) =
      (if VALID_STATUSES.contains (jsTrim (jsToLower s)) then
        .ok (jsTrim (jsToLower s)) else .error "Invalid status") := by
    simp only [validateStatus, if_neg hs]
  have hvp : validatePriority (some s) =
      (if VALID_PRIORITIES.contains (jsTrim (jsToLower s)) then
        .ok (jsTrim (jsToLower s)) else .error "Invalid priority") := by
    simp only [validatePriority, if_neg hs]
  refine ⟨?_, ?_, ?_, ?_, ?_, ?_, ?_, ?_⟩ <;> intro hc
  · simp only [Task.construct, statusData, TaskData.empty, bind, Except.bind,
      if_neg (by decide : ¬ ("x" : String) = ""), validateTitle, validateDescription,
      hvs, hc, if_true, validatePriority, validateDueDate, validateTags, validateSubtasks,
      validateSubList, Option.getD]
    rfl
  · simp only [Task.construct, statusData, TaskData.empty, bind, Except.bind,
      if_neg (by decide : ¬ ("x" : String) = ""), validateTitle, validateDescription,
      hvs, hc, if_false, Bool.false_eq_true]
    rfl
  · simp only [Task.update, statusUpd, updTitle, updDescription, updStatus, updPriority,
      updDueDate, updTags, updSubtasks, updStep, bind, Except.bind, hvs, hc, if_true]
  · simp only [Task.update, statusUpd, updTitle, updDescription, updStatus, updPriority,
      updDueDate, updTags, updSubtasks, updStep, bind, Except.bind, hvs, hc, if_false,
      Bool.false_eq_true]
  · simp only [Task.construct, priorityData, TaskData.empty, bind, Except.bind,
      if_neg (by decide : ¬ ("x" : String) = ""), validateTitle, validateDescription,
      validateStatus, hvp, hc, if_true, validateDueDate, validateTags, validateSubtasks,
      validateSubList, Option.getD]
    rfl
  · simp only [Task.construct, priorityData, TaskData.empty, bind, Except.bind,
      if_neg (by decide : ¬ ("x" : String) = ""), validateTitle, validateDescription,
      validateStatus, hvp, hc, if_false, Bool.false_eq_true]
    rfl
  · simp only [Task.update, priorityUpd, updTitle, updDescription, updStatus, updPriority,
      updDueDate, updTags, updSubtasks, updStep, bind, Except.bind, hvp, hc, if_true]
  · simp only [Task.update, priorityUpd, updTitle, updDescription, updStatus, updPriority,
      updDueDate, updTags, updSubtasks, updStep, bind, Except.bind, hvp, hc, if_false,
      Bool.false_eq_true]

/-- C9, witness: the status input " Completed " is accepted by construction
    and by update and stored as the canonical "completed". -/
theorem C9_witness :
    Task.construct gen0 4 (statusData " Completed ") =
      .ok ⟨"gid", "x", none, "completed", "medium", none, [], [], 4, 4⟩ ∧
    Task.update gen0 4 c1Task (statusUpd " Completed ") =
      .ok ⟨"i1", "a", none, "completed", "medium", none, [], [], 0, 4⟩ :=
  ⟨(C9_normalization gen0 4 c1Task " Completed " (by decide)).1 (by decide),
   (C9_normalization gen0 4 c1Task " Completed " (by decide)).2.2.1 (by decide)⟩

/-- C10: for every storage state, `loadTasks` (with the bounded model of its
    single recursive retry) returns without raising — two fuel units always
    suffice, so the backup-recovery self-call runs at most once — and every
    task in the returned collection is the successful reconstruction of some
    stored record. -/
theorem C10_load_total (gen : Nat → String) (now : Int) (cap : Nat) (tsName : String)
    (st : Storage) :
    ∃ tasks st1, loadTasksFuel gen now cap tsName 2 st = some (tasks, st1) ∧
      ∀ t ∈ tasks, ∃ d, Task.fromJSON gen now d = .ok t := by
  have hmem : ∀ (l : List TaskData) t,
      t ∈ l.filterMap (fun d => (Task.fromJSON gen now d).toOption) →
      ∃ d, Task.fromJSON gen now d = .ok t := by
    intro l t ht
    obtain ⟨d, _, hds⟩ := List.mem_filterMap.mp ht
    exact ⟨d, toOption_ok.mp hds⟩
  show ∃ tasks st1, loadTasksFuel gen now cap tsName (1 + 1) st = some (tasks, st1) ∧ _
  unfold loadTasksFuel
  cases hA : isAvailable cap st with
  | false => exact ⟨[], st, by simp [hA], by simp⟩
  | true =>
    simp only [hA, Bool.not_true, Bool.false_eq_true, if_false]
    cases hP : getItem st STORAGE_KEY with
    | none => exact ⟨[], st, rfl, by simp⟩
    | some v =>
      obtain ⟨sz, vc⟩ := v
      cases vc with
      | jarr l => exact ⟨_, st, rfl, hmem l⟩
      | jother => exact ⟨[], _, rfl, by simp⟩
      | malformed =>
        rcases hr : recoverFromBackup cap st with ⟨rb, st2⟩
        cases rb with
        | false =>
          exact ⟨[], clearCorruptedData cap tsName ⟨sz, .malformed⟩ st2,
            by simp only [hr]; rfl, by simp⟩
        | true =>
          obtain ⟨b, hB, hbm, hst2⟩ := recoverFromBackup_true hr
          have hPb : getItem st2 STORAGE_KEY = some b := by
            rw [hst2]; exact getItem_setAssoc_self _ _ _
          simp only [hr]
          show ∃ tasks st1, loadTasksFuel gen now cap tsName (0 + 1) st2 = some (tasks, st1) ∧ _
          unfold loadTasksFuel
          cases hA2 : isAvailable cap st2 with
          | false => exact ⟨[], st2, by simp [hA2], by simp⟩
          | true =>
            simp only [hA2, Bool.not_true, Bool.false_eq_true, if_false, hPb]
            obtain ⟨bsz, bc⟩ := b
            cases bc with
            | malformed => exact absurd rfl hbm
            | jarr l => exact ⟨_, st2, rfl, hmem l⟩
            | jother => exact ⟨[], _, rfl, by simp⟩

/-- C10, witness: the load at a concrete empty store. -/
theorem C10_witness :
    ∃ tasks st1, loadTasksFuel gen0 0 10 "T" 2 [] = some (tasks, st1) ∧
      ∀ t ∈ tasks, ∃ d, Task.fromJSON gen0 0 d = .ok t :=
  C10_load_total gen0 0 10 "T" []

end Zenith
